import Mathlib

/-!
Verification of the request-execution engine and step-processing orchestrator of the
neurana/sdk client library, as a shallow embedding in Lean.

Embedded source files:
  - `src/errors.ts` (error class hierarchy),
  - `src/constants/index.ts` (HTTP status / retry constant tables),
  - `src/http.ts` (`HttpClient`: request, executeWithRetry, handleResponse,
    createHttpError, handleError, shouldRetry, isRetryableError, calculateDelay),
  - `src/resources/workflows.ts` (`WorkflowsResource`: create, update, processSteps),
  - `src/client.ts` (`NeuranaClient.validateEndpointSecurity`).

JavaScript strings are Lean `String`s; machine integers do not overflow in any embedded
computation (delays are bounded by the 30000 cap, statuses are small), so `Nat`/`Int`
are used directly.  Asynchronous effects (fetch attempts, sleeps, timer arm/clear,
upload calls, workflow POST/PATCH) are made observable as explicit event traces.
-/

namespace Neurana

/-! ## String helpers mirroring JavaScript string primitives -/

/-- `startsWithList hay needle` : does `hay` start with `needle` (as character lists)? -/
def startsWithList : List Char → List Char → Bool
  | _, [] => true
  | [], _ :: _ => false
  | h :: hs, n :: ns => h = n && startsWithList hs ns

/-- Substring containment on character lists (JavaScript `String.prototype.includes`). -/
def hasSubList (hay needle : List Char) : Bool :=
  startsWithList hay needle ||
    match hay with
    | [] => false
    | _ :: t => hasSubList t needle

/-- JavaScript `hay.includes(needle)`. -/
def strHasSub (hay needle : String) : Bool :=
  hasSubList hay.toList needle.toList

/-- JavaScript `s.startsWith(p)`. -/
def strStartsWith (s p : String) : Bool :=
  startsWithList s.toList p.toList

/-- JavaScript whitespace characters recognized by `parseInt` / `trim`
(ASCII fragment; the claims only exercise ASCII inputs). -/
def jsWhitespace (c : Char) : Bool :=
  c = ' ' || c = '\t' || c = '\n' || c = '\r' || c = '\x0b' || c = '\x0c'

/-- JavaScript `s.trim()` (ASCII whitespace fragment). -/
def jsTrim (s : String) : String :=
  ⟨(s.toList.dropWhile jsWhitespace).reverse.dropWhile jsWhitespace |>.reverse⟩

/-- Fold a list of decimal digits into a natural number. -/
def digitsToNat (ds : List Char) : Nat :=
  ds.foldl (fun acc c => acc * 10 + (c.toNat - '0'.toNat)) 0

/-- JavaScript `parseInt(s, 10)`: skip leading whitespace, optional sign, longest
digit run; `none` models `NaN` (no digits found). -/
def jsParseInt (s : String) : Option Int :=
  let cs := s.toList.dropWhile jsWhitespace
  match cs with
  | '-' :: rest =>
      let ds := rest.takeWhile Char.isDigit
      if ds.isEmpty then none else some (-(digitsToNat ds : Int))
  | '+' :: rest =>
      let ds := rest.takeWhile Char.isDigit
      if ds.isEmpty then none else some (digitsToNat ds : Int)
  | _ =>
      let ds := cs.takeWhile Char.isDigit
      if ds.isEmpty then none else some (digitsToNat ds : Int)

/-! ## Constants (`src/constants/index.ts`) -/

namespace HTTP_STATUS

def OK : Nat := 200
def CREATED : Nat := 201
def NO_CONTENT : Nat := 204
def BAD_REQUEST : Nat := 400
def UNAUTHORIZED : Nat := 401
def FORBIDDEN : Nat := 403
def NOT_FOUND : Nat := 404
def CONFLICT : Nat := 409
def UNPROCESSABLE : Nat := 422
def RATE_LIMITED : Nat := 429
def SERVER_ERROR : Nat := 500
def SERVICE_UNAVAILABLE : Nat := 503

end HTTP_STATUS

namespace RETRY

def MAX_ATTEMPTS : Nat := 3
def INITIAL_DELAY : Nat := 1000
def MAX_DELAY : Nat := 30000
def BACKOFF_FACTOR : Nat := 2
def RETRYABLE_STATUS : List Nat := [408, 429, 500, 502, 503, 504]

end RETRY

namespace ERROR_CODES

def AUTHENTICATION_FAILED : String := "AUTH_FAILED"
def AUTHORIZATION_FAILED : String := "FORBIDDEN"
def NOT_FOUND : String := "NOT_FOUND"
def VALIDATION_ERROR : String := "VALIDATION_ERROR"
def RATE_LIMIT_EXCEEDED : String := "RATE_LIMIT"
def NETWORK_ERROR : String := "NETWORK_ERROR"
def TIMEOUT : String := "TIMEOUT"
def INVALID_CONFIG : String := "INVALID_CONFIG"

end ERROR_CODES

/-- Modelled from the spec: the `ERROR_MESSAGES` table (default human message per error
code) lives in the constants module, which is not under `src/`; the spec only requires
that "every error exposes a stable machine-readable code plus a human message".  We
model the table as a fixed map from code to a default message; no claim depends on the
message values, only on codes, class names, statuses and explicitly passed messages. -/
def ERROR_MESSAGES (code : String) : String :=
  "Default message for " ++ code

/-! ## Error taxonomy (`src/errors.ts`)

Each TS error class becomes a value of one structure; the class is identified by its
`name` field exactly as in the source (`this.name = '...'`).  `details` of type
`unknown` is modelled as either an opaque string payload (the parsed body `details`)
or the `{ retryAfter }` record built by `RateLimitError`. -/

inductive ErrDetails
  | str (s : String)
  | retryAfterObj (n : Int)
deriving DecidableEq, Repr

structure NeuranaError where
  name : String
  message : String
  code : String
  statusCode : Option Int := none
  details : Option ErrDetails := none
  retryAfter : Option Int := none
deriving DecidableEq, Repr

def AuthenticationError (message : String) : NeuranaError :=
  { name := "AuthenticationError", message := message,
    code := ERROR_CODES.AUTHENTICATION_FAILED, statusCode := some 401 }

def AuthorizationError (message : String) : NeuranaError :=
  { name := "AuthorizationError", message := message,
    code := ERROR_CODES.AUTHORIZATION_FAILED, statusCode := some 403 }

def NotFoundError (message : String) : NeuranaError :=
  { name := "NotFoundError", message := message,
    code := ERROR_CODES.NOT_FOUND, statusCode := some 404 }

def ValidationError (message : String) (details : Option ErrDetails) : NeuranaError :=
  { name := "ValidationError", message := message,
    code := ERROR_CODES.VALIDATION_ERROR, statusCode := some 422, details := details }

def RateLimitError (retryAfter : Int) (message : String) : NeuranaError :=
  { name := "RateLimitError", message := message,
    code := ERROR_CODES.RATE_LIMIT_EXCEEDED, statusCode := some 429,
    details := some (.retryAfterObj retryAfter), retryAfter := some retryAfter }

def NetworkError (message : String) : NeuranaError :=
  { name := "NetworkError", message := message, code := ERROR_CODES.NETWORK_ERROR }

def TimeoutError (message : String) : NeuranaError :=
  { name := "TimeoutError", message := message,
    code := ERROR_CODES.TIMEOUT, statusCode := some 408 }

def ConfigurationError (message : String) : NeuranaError :=
  { name := "ConfigurationError", message := message, code := ERROR_CODES.INVALID_CONFIG }

/-! ## Transport model -/

/-- The `{code, message, details}` payload inside an error body. -/
structure ErrorBody where
  code : Option String := none
  message : Option String := none
  details : Option String := none
deriving DecidableEq, Repr

/-- A JSON body viewed through the `ApiError` lens: `{error: {code, message, details?}}`.
`error := none` models a JSON document without a usable `error` member. -/
structure ApiError where
  error : Option ErrorBody := none
deriving DecidableEq, Repr

/-- A completed transport response.  `jsonBody = none` means `response.json()` rejects
(malformed body); `jsonBody = some a` means it resolves to a value seen as `a` through
the `ApiError` lens. -/
structure Response where
  status : Nat
  contentType : Option String := none
  jsonBody : Option ApiError := none
  textBody : String := ""
  retryAfterHeader : Option String := none
deriving DecidableEq, Repr

/-- `response.ok` : status in the 2xx range. -/
def Response.ok (r : Response) : Bool :=
  decide (200 ≤ r.status ∧ r.status < 300)

/-- `contentType?.includes('application/json')` (with optional chaining: a missing
header is not JSON). -/
def isJsonContentType (ct : Option String) : Bool :=
  match ct with
  | none => false
  | some s => strHasSub s "application/json"

/-- A value thrown by the transport layer or by the response pipeline. -/
inductive Thrown
  | neurana (e : NeuranaError)
  | jsError (name message : String)
  | nonError
deriving DecidableEq, Repr

/-- A successful `handleResponse` value: `undefined` (204 path), raw text, or parsed
JSON (seen through the `ApiError` lens; claims never inspect success payloads). -/
inductive HttpValue
  | noContent
  | text (s : String)
  | json (body : ApiError)
deriving DecidableEq, Repr

/-! ## Response Interpreter (`HttpClient.createHttpError`, `HttpClient.handleResponse`,
`HttpClient.handleError`, `src/http.ts`) -/

/-- The `retryAfter` computation of the 429 branch of `createHttpError`
(`src/http.ts` lines 300-304): `retryAfterHeader ? parseInt(retryAfterHeader, 10) : 60`
followed by `isNaN(retryAfter) ? 60 : retryAfter`.  An empty header string is falsy in
JavaScript, hence also defaults. -/
def retryAfterValue (hdr : Option String) : Int :=
  match hdr with
  | none => 60
  | some h => if h = "" then 60 else (jsParseInt h).getD 60

/-- `HttpClient.createHttpError` (`src/http.ts` lines 284-308).  The TS `switch` on
`status` with a `422`/`400` fallthrough is rendered as the equivalent test chain. -/
def createHttpError (r : Response) (errorData : Option ApiError) : NeuranaError :=
  let eb := errorData.bind ApiError.error
  let code := (eb.bind ErrorBody.code).getD "UNKNOWN_ERROR"
  let message := (eb.bind ErrorBody.message).getD "An unexpected error occurred"
  let details := eb.bind ErrorBody.details
  if r.status = HTTP_STATUS.UNAUTHORIZED then AuthenticationError message
  else if r.status = HTTP_STATUS.FORBIDDEN then AuthorizationError message
  else if r.status = HTTP_STATUS.NOT_FOUND then NotFoundError message
  else if r.status = HTTP_STATUS.UNPROCESSABLE ∨ r.status = HTTP_STATUS.BAD_REQUEST then
    ValidationError message (details.map ErrDetails.str)
  else if r.status = HTTP_STATUS.RATE_LIMITED then
    RateLimitError (retryAfterValue r.retryAfterHeader) message
  else
    { name := "NeuranaError", message := message, code := code,
      statusCode := some (r.status : Int), details := details.map ErrDetails.str }

/-- The error body handed to `createHttpError` by `handleResponse`: the parsed JSON
body when the content type is JSON and parsing succeeded, `null` otherwise. -/
def errorDataOf (r : Response) : Option ApiError :=
  if isJsonContentType r.contentType then r.jsonBody else none

/-- `HttpClient.handleResponse` (`src/http.ts` lines 253-282). -/
def handleResponse (r : Response) : Except NeuranaError HttpValue :=
  if r.status = HTTP_STATUS.NO_CONTENT then .ok .noContent
  else if !r.ok then .error (createHttpError r (errorDataOf r))
  else if !isJsonContentType r.contentType then .ok (.text r.textBody)
  else
    match r.jsonBody with
    | some j => .ok (.json j)
    | none =>
        .error { name := "NeuranaError", message := "Failed to parse response",
                 code := "PARSE_ERROR", statusCode := some (r.status : Int) }

/-- `HttpClient.handleError` (`src/http.ts` lines 310-326). -/
def handleError : Thrown → NeuranaError
  | .neurana e => e
  | .jsError name message =>
      if name = "AbortError" then TimeoutError (ERROR_MESSAGES ERROR_CODES.TIMEOUT)
      else if strHasSub message "fetch" || strHasSub message "network" then
        NetworkError "Failed to connect to server"
      else
        { name := "NeuranaError", message := "An unexpected error occurred",
          code := "UNKNOWN_ERROR" }
  | .nonError =>
      { name := "NeuranaError", message := "An unexpected error occurred",
        code := "UNKNOWN_ERROR" }

/-! ## Endpoint security (`NeuranaClient.validateEndpointSecurity`, `src/client.ts`
lines 110-123) -/

inductive EndpointCheck
  | passed
  | warnedInsecure
  | rejected (e : NeuranaError)
deriving DecidableEq, Repr

/-- `NeuranaClient.validateEndpointSecurity`.  `if (!url) return;` treats both a
missing and an empty URL as absent. -/
def validateEndpointSecurity (url : Option String) (allowInsecure : Bool) :
    EndpointCheck :=
  match url with
  | none => .passed
  | some u =>
      if u = "" then .passed
      else
        let isSecure := strStartsWith u "https://"
        let isLocalhost := strHasSub u "localhost" || strHasSub u "127.0.0.1"
        if !isSecure && !isLocalhost then
          if allowInsecure then .warnedInsecure
          else .rejected (ConfigurationError "HTTPS is required for non-localhost endpoints")
        else .passed

/-! ## Retry engine (`HttpClient.shouldRetry`, `HttpClient.isRetryableError`,
`HttpClient.calculateDelay`, `HttpClient.executeWithRetry`, `HttpClient.request`,
`src/http.ts`) -/

/-- `HttpClient.shouldRetry` (`src/http.ts` lines 328-330). -/
def shouldRetry (status : Nat) (attempt : Nat) : Bool :=
  decide (attempt < RETRY.MAX_ATTEMPTS) && RETRY.RETRYABLE_STATUS.contains status

/-- `HttpClient.isRetryableError` (`src/http.ts` lines 332-337).  Every `NeuranaError`
is an `Error` instance, so it reaches the name/message tests like any other `Error`. -/
def isRetryableError : Thrown → Bool
  | .neurana e => e.name = "TypeError" || strHasSub e.message "network"
  | .jsError name message => name = "TypeError" || strHasSub message "network"
  | .nonError => false

/-- `HttpClient.calculateDelay` (`src/http.ts` lines 339-342). -/
def calculateDelay (attempt : Nat) : Nat :=
  min (RETRY.INITIAL_DELAY * RETRY.BACKOFF_FACTOR ^ (attempt - 1)) RETRY.MAX_DELAY

/-- The outcome of one `fetch` attempt: a completed response, or a thrown value. -/
inductive FetchOutcome
  | success (r : Response)
  | failure (e : Thrown)
deriving Repr

/-- An observable event of one logical operation. -/
inductive Event
  | timerArm
  | fetchAttempt (n : Nat)
  | sleep (ms : Nat)
  | timerClear
deriving DecidableEq, Repr

/-- Result of `executeWithRetry`: the value returned or thrown, the 1-indexed attempt
numbers issued (in order), the sleeps performed between attempts (in order), and the
full event trace. -/
structure RetryRun where
  outcome : Except Thrown Response
  attempts : List Nat
  delays : List Nat
  events : List Event
deriving Repr

/-- `HttpClient.executeWithRetry` (`src/http.ts` lines 206-225), with the transport
modelled as a map `f` from 1-indexed attempt number to that attempt's outcome. -/
def executeWithRetry (f : Nat → FetchOutcome) (attempt : Nat) : RetryRun :=
  match f attempt with
  | .success r =>
      if h : shouldRetry r.status attempt = true then
        let rest := executeWithRetry f (attempt + 1)
        { outcome := rest.outcome, attempts := attempt :: rest.attempts,
          delays := calculateDelay attempt :: rest.delays,
          events := .fetchAttempt attempt :: .sleep (calculateDelay attempt) :: rest.events }
      else
        { outcome := .ok r, attempts := [attempt], delays := [],
          events := [.fetchAttempt attempt] }
  | .failure e =>
      if h : isRetryableError e = true ∧ attempt < RETRY.MAX_ATTEMPTS then
        let rest := executeWithRetry f (attempt + 1)
        { outcome := rest.outcome, attempts := attempt :: rest.attempts,
          delays := calculateDelay attempt :: rest.delays,
          events := .fetchAttempt attempt :: .sleep (calculateDelay attempt) :: rest.events }
      else
        { outcome := .error e, attempts := [attempt], delays := [],
          events := [.fetchAttempt attempt] }
termination_by RETRY.MAX_ATTEMPTS - attempt
decreasing_by
  · simp only [shouldRetry, RETRY.MAX_ATTEMPTS, Bool.and_eq_true, decide_eq_true_eq] at h
    simp only [RETRY.MAX_ATTEMPTS]
    omega
  · simp only [RETRY.MAX_ATTEMPTS] at h
    simp only [RETRY.MAX_ATTEMPTS]
    omega

/-- Result of `HttpClient.request`: the classified outcome together with the event
trace (timer arm, attempts, sleeps, timer clear). -/
structure RequestRun where
  result : Except NeuranaError HttpValue
  events : List Event
deriving Repr

/-- `HttpClient.request` (`src/http.ts` lines 183-204): arm the deadline timer, run
`executeWithRetry` from attempt 1, classify via `handleResponse`, route anything thrown
through `handleError`, and clear the timer in the `finally` block on every exit path. -/
def request (f : Nat → FetchOutcome) : RequestRun :=
  let run := executeWithRetry f 1
  let result : Except NeuranaError HttpValue :=
    match run.outcome with
    | .ok r =>
        match handleResponse r with
        | .ok v => .ok v
        | .error e => .error (handleError (.neurana e))
    | .error e => .error (handleError e)
  { result := result, events := Event.timerArm :: run.events ++ [Event.timerClear] }

/-! ## Step Orchestrator (`WorkflowsResource`, `src/resources/workflows.ts`)

A step's `config` record is modelled with the three fields the orchestrator reads or
rewrites (`runtime`, `code`, `fileName`), the `fileId` field it writes, and an opaque
association list `rest` for every other entry (`libs`, `envKeys`, `timeout`, ...),
which the rest-spread `...restConfig` copies verbatim. -/

structure StepConfig where
  runtime : Option String := none
  code : Option String := none
  fileName : Option String := none
  fileId : Option String := none
  rest : List (String × String) := []
deriving DecidableEq, Repr

/-- A `CreateStepInput` (`src/types/workflows.ts`): exactly the five properties the
orchestrator reads and re-emits. -/
structure Step where
  type : String
  name : Option String := none
  config : StepConfig := {}
  next : Option String := none
  condition : Option String := none
deriving DecidableEq, Repr

/-- One invocation of the code-upload collaborator
`codeUploader(fileName, content, language)`. -/
structure UploadCall where
  fileName : String
  content : String
  language : String
deriving DecidableEq, Repr

/-- The upload collaborator: returns the artifact `{ key }`, or throws. -/
def Uploader : Type := UploadCall → Except NeuranaError String

/-- The body of `WorkflowsResource.processSteps` (`src/resources/workflows.ts` lines
135-193), with the loop index `i` explicit and the upload calls issued so far returned
as a trace alongside the result. -/
def processStepsGo (uploader : Uploader) : Nat → List Step →
    Except NeuranaError (List Step) × List UploadCall
  | _, [] => (.ok [], [])
  | i, step :: restSteps =>
    if step.type = "code" then
      let codeConfig := step.config
      match codeConfig.runtime with
      | none =>
          (.error (ValidationError
            ("Step " ++ toString (i + 1) ++ ": runtime is required for code steps (python or node)")
            none), [])
      | some rt =>
          if !(rt = "python" || rt = "node") then
            (.error (ValidationError
              ("Step " ++ toString (i + 1) ++ ": runtime must be \x27python\x27 or \x27node\x27")
              none), [])
          else if jsTrim (codeConfig.code.getD "") = "" then
            (.error (ValidationError
              ("Step " ++ toString (i + 1) ++ ": code content is required for code steps")
              none), [])
          else
            let extension := if rt = "python" then "py" else "js"
            let fileName := codeConfig.fileName.getD
              ("step_" ++ toString (i + 1) ++ "." ++ extension)
            let language := if rt = "python" then "python" else "javascript"
            let call : UploadCall :=
              { fileName := fileName, content := codeConfig.code.getD "",
                language := language }
            match uploader call with
            | .error e => (.error e, [call])
            | .ok key =>
                let newStep : Step :=
                  { type := step.type, name := step.name,
                    config := { runtime := codeConfig.runtime, code := none,
                                fileName := none, fileId := some key,
                                rest := codeConfig.rest },
                    next := step.next, condition := step.condition }
                let restRun := processStepsGo uploader (i + 1) restSteps
                (restRun.1.map (newStep :: ·), call :: restRun.2)
    else
      let passStep : Step :=
        { type := step.type, name := step.name, config := step.config,
          next := step.next, condition := step.condition }
      let restRun := processStepsGo uploader (i + 1) restSteps
      (restRun.1.map (passStep :: ·), restRun.2)

/-- `WorkflowsResource.processSteps`. -/
def processSteps (uploader : Uploader) (steps : List Step) :
    Except NeuranaError (List Step) × List UploadCall :=
  processStepsGo uploader 0 steps

/-- An observable network-facing action of a workflow create/update. -/
inductive NetEvent
  | uploadCall (c : UploadCall)
  | postWorkflow (steps : List Step)
  | patchWorkflow (steps : Option (List Step))
deriving DecidableEq, Repr

/-- Result of a workflow create/update: the outcome (on success, the processed step
sequence of the outbound payload) and the ordered network-event trace. -/
structure OrchestratorRun where
  result : Except NeuranaError (List Step)
  events : List NetEvent
deriving Repr

/-- `WorkflowsResource.create` (`src/resources/workflows.ts` lines 74-91), restricted
to the fields the claims observe: the `name` guard, the non-empty-steps guard, then
`processSteps`, then the workflow POST carrying the processed steps. -/
def create (uploader : Uploader) (name : String) (steps : List Step) :
    OrchestratorRun :=
  if jsTrim name = "" then
    { result := .error (ValidationError "name is required" none), events := [] }
  else if steps.isEmpty then
    { result := .error (ValidationError "At least one step is required" none),
      events := [] }
  else
    let run := processSteps uploader steps
    match run.1 with
    | .error e =>
        { result := .error e, events := run.2.map NetEvent.uploadCall }
    | .ok processed =>
        { result := .ok processed,
          events := run.2.map NetEvent.uploadCall ++ [NetEvent.postWorkflow processed] }

/-- `validateId` (`src/resources/workflows.ts` lines 20-27): non-empty, at most 64
characters, and matching `/^[a-zA-Z0-9_-]+$/`. -/
def isValidId (id : String) : Bool :=
  id ≠ "" && decide (id.length ≤ 64) &&
    id.toList.all (fun c => c.isAlphanum || c = '_' || c = '-')

/-- `WorkflowsResource.update` (`src/resources/workflows.ts` lines 99-112).  The
non-step fields of the update payload are summarized by `hasOtherFields` (they only
feed the `Object.keys(data).length === 0` guard). -/
def update (uploader : Uploader) (id : String) (hasOtherFields : Bool)
    (steps : Option (List Step)) : OrchestratorRun :=
  if !isValidId id then
    { result := .error (ValidationError "Invalid id format" none), events := [] }
  else if !hasOtherFields && steps.isNone then
    { result := .error (ValidationError "Update data is required" none), events := [] }
  else
    match steps with
    | some l =>
        if l.isEmpty then
          { result := .ok [], events := [NetEvent.patchWorkflow (some l)] }
        else
          let run := processSteps uploader l
          match run.1 with
          | .error e =>
              { result := .error e, events := run.2.map NetEvent.uploadCall }
          | .ok processed =>
              { result := .ok processed,
                events := run.2.map NetEvent.uploadCall ++
                  [NetEvent.patchWorkflow (some processed)] }
    | none => { result := .ok [], events := [NetEvent.patchWorkflow none] }

/-! ## Derived descriptions used to state the claims -/

/-- The upload call `processSteps` issues for a code step at 0-based index `i` with
config `c`: default artifact name from the position and the runtime's conventional
extension when no override is supplied, and the normalized language tag. -/
def uploadCallFor (i : Nat) (c : StepConfig) : UploadCall :=
  let rt := c.runtime.getD ""
  let extension := if rt = "python" then "py" else "js"
  { fileName := c.fileName.getD ("step_" ++ toString (i + 1) ++ "." ++ extension),
    content := c.code.getD "",
    language := if rt = "python" then "python" else "javascript" }

/-- The validation error (if any) that `processSteps` raises for a code step at
0-based index `i` with config `c`, in source order: missing runtime, unsupported
runtime, then empty source text. -/
def codeStepValidationError (i : Nat) (c : StepConfig) : Option NeuranaError :=
  match c.runtime with
  | none => some (ValidationError
      ("Step " ++ toString (i + 1) ++ ": runtime is required for code steps (python or node)")
      none)
  | some rt =>
      if !(rt = "python" || rt = "node") then
        some (ValidationError
          ("Step " ++ toString (i + 1) ++ ": runtime must be \x27python\x27 or \x27node\x27")
          none)
      else if jsTrim (c.code.getD "") = "" then
        some (ValidationError
          ("Step " ++ toString (i + 1) ++ ": code content is required for code steps")
          none)
      else none

/-- Relation between an input step at 0-based index `i` and the corresponding step of
the outbound payload: non-code steps pass through unchanged; a code step keeps its
identity fields, loses `code` and `fileName`, and gains the collaborator's artifact
key as `fileId`. -/
def stepProcessedOK (uploader : Uploader) (i : Nat) (s t : Step) : Prop :=
  (s.type ≠ "code" ∧ t = s) ∨
  (s.type = "code" ∧ t.type = s.type ∧ t.name = s.name ∧ t.next = s.next ∧
    t.condition = s.condition ∧ t.config.code = none ∧ t.config.fileName = none ∧
    t.config.runtime = s.config.runtime ∧ t.config.rest = s.config.rest ∧
    ∃ key, uploader (uploadCallFor i s.config) = .ok key ∧ t.config.fileId = some key)

/-- A step at 0-based index `i` that `processSteps` gets past without failing: either
not code-bearing, or valid with a successful upload. -/
def stepPasses (uploader : Uploader) (i : Nat) (s : Step) : Prop :=
  s.type = "code" →
    codeStepValidationError i s.config = none ∧
    ∃ key, uploader (uploadCallFor i s.config) = .ok key

/-- The upload calls a prefix of the step list gives rise to, starting at 0-based
index `i`: one call per code step, in step order. -/
def expectedUploads (i : Nat) : List Step → List UploadCall
  | [] => []
  | s :: rest =>
      if s.type = "code" then uploadCallFor i s.config :: expectedUploads (i + 1) rest
      else expectedUploads (i + 1) rest

/-- The value `fetch` rejects with when its signal is aborted: a `DOMException` whose
`name` is `"AbortError"`. -/
def abortThrown : Thrown := .jsError "AbortError" "This operation was aborted"

/-- Is an event a transport attempt? -/
def isAttemptEvent : Event → Bool
  | .fetchAttempt _ => true
  | _ => false

/-! ## Concrete fixtures for witnesses and counterexamples -/

def resp503 : Response := { status := 503 }

def alwaysFail503 : Nat → FetchOutcome := fun _ => .success resp503

def respParseFail : Response :=
  { status := 200, contentType := some "application/json", jsonBody := none }

def resp401 : Response := { status := 401 }

def resp429with45 : Response := { status := 429, retryAfterHeader := some "45" }

def resp429neg : Response := { status := 429, retryAfterHeader := some "-5" }

def bodyWithDetails : ApiError :=
  { error := some { code := some "BAD_INPUT", message := some "name too short",
                    details := some "field name" } }

def resp400 : Response :=
  { status := 400, contentType := some "application/json",
    jsonBody := some bodyWithDetails }

def resp422 : Response :=
  { status := 422, contentType := some "application/json",
    jsonBody := some bodyWithDetails }

def okUploader : Uploader := fun c => .ok ("artifact_" ++ c.fileName)

def codeStepPy : Step :=
  { type := "code", name := some "transform",
    config := { runtime := some "python", code := some "print(1)",
                rest := [("libs", "requests")] } }

def httpStep : Step :=
  { type := "http", name := some "call",
    config := { rest := [("url", "https://api.example.com")] } }

def badCodeStep : Step :=
  { type := "code", name := some "broken", config := { code := some "print(2)" } }

/-- The step `codeStepPy` is rewritten to by `processSteps` under `okUploader`. -/
def pyProcessed : Step :=
  { type := "code", name := some "transform",
    config := { runtime := some "python", code := none, fileName := none,
                fileId := some "artifact_step_1.py", rest := [("libs", "requests")] } }

/-! ## Unfolding lemmas for the retry loop -/

theorem executeWithRetry_success_stop (f : Nat → FetchOutcome) (n : Nat) (r : Response)
    (hf : f n = .success r) (h : shouldRetry r.status n = false) :
    executeWithRetry f n =
      { outcome := .ok r, attempts := [n], delays := [],
        events := [.fetchAttempt n] } := by
  unfold executeWithRetry
  rw [hf]
  simp [h]

theorem executeWithRetry_success_retry (f : Nat → FetchOutcome) (n : Nat) (r : Response)
    (hf : f n = .success r) (h : shouldRetry r.status n = true) :
    executeWithRetry f n =
      { outcome := (executeWithRetry f (n + 1)).outcome,
        attempts := n :: (executeWithRetry f (n + 1)).attempts,
        delays := calculateDelay n :: (executeWithRetry f (n + 1)).delays,
        events := .fetchAttempt n :: .sleep (calculateDelay n) ::
          (executeWithRetry f (n + 1)).events } := by
  conv_lhs => rw [executeWithRetry]
  rw [hf]
  simp [h]

theorem executeWithRetry_failure_stop (f : Nat → FetchOutcome) (n : Nat) (e : Thrown)
    (hf : f n = .failure e)
    (h : ¬(isRetryableError e = true ∧ n < RETRY.MAX_ATTEMPTS)) :
    executeWithRetry f n =
      { outcome := .error e, attempts := [n], delays := [],
        events := [.fetchAttempt n] } := by
  unfold executeWithRetry
  rw [hf]
  simp [h]

theorem executeWithRetry_failure_retry (f : Nat → FetchOutcome) (n : Nat) (e : Thrown)
    (hf : f n = .failure e)
    (hr : isRetryableError e = true) (hn : n < RETRY.MAX_ATTEMPTS) :
    executeWithRetry f n =
      { outcome := (executeWithRetry f (n + 1)).outcome,
        attempts := n :: (executeWithRetry f (n + 1)).attempts,
        delays := calculateDelay n :: (executeWithRetry f (n + 1)).delays,
        events := .fetchAttempt n :: .sleep (calculateDelay n) ::
          (executeWithRetry f (n + 1)).events } := by
  conv_lhs => rw [executeWithRetry]
  rw [hf]
  simp [hr, hn]

theorem retryable_contains {s : Nat} (h : s ∈ RETRY.RETRYABLE_STATUS) :
    RETRY.RETRYABLE_STATUS.contains s = true := by
  simp only [RETRY.RETRYABLE_STATUS, List.mem_cons, List.not_mem_nil, or_false] at h
  rcases h with h | h | h | h | h | h <;> rw [h] <;> decide

theorem shouldRetry_true_of {s n : Nat} (hn : n < RETRY.MAX_ATTEMPTS)
    (hs : s ∈ RETRY.RETRYABLE_STATUS) : shouldRetry s n = true := by
  simp only [shouldRetry, Bool.and_eq_true, decide_eq_true_eq]
  exact ⟨hn, retryable_contains hs⟩

theorem shouldRetry_false_at_max {s : Nat} : shouldRetry s RETRY.MAX_ATTEMPTS = false := by
  simp [shouldRetry]

theorem handleResponse_retryable_status {r : Response}
    (h : r.status ∈ RETRY.RETRYABLE_STATUS) :
    handleResponse r = .error (createHttpError r (errorDataOf r)) := by
  simp only [RETRY.RETRYABLE_STATUS, List.mem_cons, List.not_mem_nil, or_false] at h
  rcases h with h | h | h | h | h | h <;>
    simp [handleResponse, HTTP_STATUS.NO_CONTENT, Response.ok, h]

/-- Claim C1: for every Operation whose transport attempts complete with statuses in
the retryable set {408, 429, 500, 502, 503, 504}, the executor reissues the call up
to a maximum of 3 total attempts, waiting before the retry that follows 1-indexed
attempt N a delay of min(30000 ms, 1000 ms · 2^(N−1)) with no jitter, and when all
attempts fail it returns the final attempt's classified Outcome. -/
theorem retry_policy_backoff_and_final_outcome (f : Nat → FetchOutcome)
    (rs : Nat → Response) (hf : ∀ n, f n = .success (rs n))
    (hr : ∀ n, (rs n).status ∈ RETRY.RETRYABLE_STATUS) :
    (executeWithRetry f 1).attempts = [1, 2, 3] ∧
    (executeWithRetry f 1).delays = [calculateDelay 1, calculateDelay 2] ∧
    (∀ n, calculateDelay n = min 30000 (1000 * 2 ^ (n - 1))) ∧
    (executeWithRetry f 1).outcome = .ok (rs 3) ∧
    (request f).result = .error (createHttpError (rs 3) (errorDataOf (rs 3))) := by
  have e1 := executeWithRetry_success_retry f 1 (rs 1) (hf 1)
    (shouldRetry_true_of (by decide) (hr 1))
  have e2 := executeWithRetry_success_retry f 2 (rs 2) (hf 2)
    (shouldRetry_true_of (by decide) (hr 2))
  have e3 := executeWithRetry_success_stop f 3 (rs 3) (hf 3)
    (by exact shouldRetry_false_at_max)
  refine ⟨?_, ?_, ?_, ?_, ?_⟩
  · rw [e1, e2, e3]
  · rw [e1, e2, e3]
  · intro n
    simp [calculateDelay, RETRY.INITIAL_DELAY, RETRY.BACKOFF_FACTOR, RETRY.MAX_DELAY,
      Nat.min_comm]
  · rw [e1, e2, e3]
  · simp only [request]
    rw [e1, e2, e3]
    simp only [handleResponse_retryable_status (hr 3)]
    rfl

/-- Witness for C1 at the transport that always answers 503. -/
theorem retry_policy_backoff_and_final_outcome_witness :
    (executeWithRetry alwaysFail503 1).attempts = [1, 2, 3] ∧
    (executeWithRetry alwaysFail503 1).delays = [1000, 2000] ∧
    (request alwaysFail503).result = .error (createHttpError resp503 none) := by
  have hmem : resp503.status ∈ RETRY.RETRYABLE_STATUS := by decide
  have h := retry_policy_backoff_and_final_outcome alwaysFail503 (fun _ => resp503)
    (fun _ => rfl) (fun _ => hmem)
  refine ⟨h.1, ?_, ?_⟩
  · rw [h.2.1]
    decide
  · have := h.2.2.2.2
    simpa [errorDataOf, resp503, isJsonContentType] using this

theorem handleResponse_non2xx {r : Response} (h : ¬(200 ≤ r.status ∧ r.status < 300)) :
    handleResponse r = .error (createHttpError r (errorDataOf r)) := by
  have h204 : ¬r.status = HTTP_STATUS.NO_CONTENT := by
    simp only [HTTP_STATUS.NO_CONTENT]
    omega
  have hok : r.ok = false := by
    simp only [Response.ok, decide_eq_false_iff_not]
    exact h
  simp [handleResponse, h204, hok]

/-- Claim C4: for every completed response with a non-2xx status, the interpreter
attempts to parse an `{error: {code, message, details}}` body and, on parse failure or
absence, falls back to a generic message with code `UNKNOWN_ERROR`; the status maps
to the error kind as 401→Authentication, 403→Authorization, 404→NotFound,
400/422→Validation carrying the details, 429→RateLimit, and any other non-2xx
status→an Unknown error carrying the original status and code. -/
theorem interpreter_maps_status_to_error_kind (r : Response)
    (h : ¬(200 ≤ r.status ∧ r.status < 300)) :
    handleResponse r = .error (createHttpError r (errorDataOf r)) ∧
    ∀ ed : Option ApiError,
      ((ed.bind ApiError.error).bind ErrorBody.message = none →
        (createHttpError r ed).message = "An unexpected error occurred") ∧
      (r.status = 401 → (createHttpError r ed).name = "AuthenticationError") ∧
      (r.status = 403 → (createHttpError r ed).name = "AuthorizationError") ∧
      (r.status = 404 → (createHttpError r ed).name = "NotFoundError") ∧
      (r.status = 400 ∨ r.status = 422 →
        (createHttpError r ed).name = "ValidationError" ∧
        (createHttpError r ed).details =
          ((ed.bind ApiError.error).bind ErrorBody.details).map ErrDetails.str) ∧
      (r.status = 429 → (createHttpError r ed).name = "RateLimitError") ∧
      (¬r.status ∈ ([400, 401, 403, 404, 422, 429] : List Nat) →
        (createHttpError r ed).name = "NeuranaError" ∧
        (createHttpError r ed).statusCode = some (r.status : Int) ∧
        (createHttpError r ed).code =
          ((ed.bind ApiError.error).bind ErrorBody.code).getD "UNKNOWN_ERROR") := by
  refine ⟨handleResponse_non2xx h, fun ed => ⟨?_, ?_, ?_, ?_, ?_, ?_, ?_⟩⟩
  · intro hm
    simp only [createHttpError, hm, Option.getD_none]
    split <;> try rfl
    split <;> try rfl
    split <;> try rfl
    split <;> try rfl
    split <;> rfl
  · intro hs
    simp [createHttpError, hs, HTTP_STATUS.UNAUTHORIZED, AuthenticationError]
  · intro hs
    simp [createHttpError, hs, HTTP_STATUS.UNAUTHORIZED, HTTP_STATUS.FORBIDDEN,
      AuthorizationError]
  · intro hs
    simp [createHttpError, hs, HTTP_STATUS.UNAUTHORIZED, HTTP_STATUS.FORBIDDEN,
      HTTP_STATUS.NOT_FOUND, NotFoundError]
  · intro hs
    rcases hs with hs | hs <;>
      simp [createHttpError, hs, HTTP_STATUS.UNAUTHORIZED, HTTP_STATUS.FORBIDDEN,
        HTTP_STATUS.NOT_FOUND, HTTP_STATUS.UNPROCESSABLE, HTTP_STATUS.BAD_REQUEST,
        ValidationError]
  · intro hs
    simp [createHttpError, hs, HTTP_STATUS.UNAUTHORIZED, HTTP_STATUS.FORBIDDEN,
      HTTP_STATUS.NOT_FOUND, HTTP_STATUS.UNPROCESSABLE, HTTP_STATUS.BAD_REQUEST,
      HTTP_STATUS.RATE_LIMITED, RateLimitError]
  · intro hs
    simp only [List.mem_cons, List.not_mem_nil, or_false, not_or] at hs
    obtain ⟨h400, h401, h403, h404, h422, h429⟩ := hs
    simp [createHttpError, HTTP_STATUS.UNAUTHORIZED, HTTP_STATUS.FORBIDDEN,
      HTTP_STATUS.NOT_FOUND, HTTP_STATUS.UNPROCESSABLE, HTTP_STATUS.BAD_REQUEST,
      HTTP_STATUS.RATE_LIMITED, h400, h401, h403, h404, h422, h429]

/-- Witness for C4 at a 401 response without an error body and at a 500 response. -/
theorem interpreter_maps_status_to_error_kind_witness :
    handleResponse resp401 = .error (createHttpError resp401 (errorDataOf resp401)) ∧
    (createHttpError resp401 (errorDataOf resp401)).name = "AuthenticationError" ∧
    (createHttpError resp401 (errorDataOf resp401)).message =
      "An unexpected error occurred" ∧
    (createHttpError { status := 500 } none).name = "NeuranaError" ∧
    (createHttpError { status := 500 } none).statusCode = some 500 ∧
    (createHttpError { status := 500 } none).code = "UNKNOWN_ERROR" := by
  have h1 := interpreter_maps_status_to_error_kind resp401 (by decide)
  have h2 := interpreter_maps_status_to_error_kind { status := 500 } (by decide)
  have h1c := h1.2 (errorDataOf resp401)
  have h2c := h2.2 none
  refine ⟨h1.1, h1c.2.1 rfl, h1c.1 rfl, ?_, ?_, ?_⟩
  · exact (h2c.2.2.2.2.2.2 (by decide)).1
  · exact (h2c.2.2.2.2.2.2 (by decide)).2.1
  · exact (h2c.2.2.2.2.2.2 (by decide)).2.2

/-- Claim C5: outcome classification is total over the modeled transport outcomes — a
JSON parse failure on a successful status is surfaced as a typed parse error, an
abort as a Timeout error, a fetch/network failure message as a Network error, any
other thrown value as an Unknown error, and an already-typed error passes through. -/
theorem outcome_classification_total :
    (∀ r : Response, 200 ≤ r.status → r.status < 300 → ¬r.status = 204 →
      isJsonContentType r.contentType = true → r.jsonBody = none →
      handleResponse r =
        .error { name := "NeuranaError",
                 message := "Failed to parse response", code := "PARSE_ERROR",
                 statusCode := some (r.status : Int) }) ∧
    (∀ msg, handleError (.jsError "AbortError" msg) =
      TimeoutError (ERROR_MESSAGES ERROR_CODES.TIMEOUT)) ∧
    (∀ nm msg, ¬nm = "AbortError" →
      (strHasSub msg "fetch" || strHasSub msg "network") = true →
      handleError (.jsError nm msg) = NetworkError "Failed to connect to server") ∧
    (∀ nm msg, ¬nm = "AbortError" →
      (strHasSub msg "fetch" || strHasSub msg "network") = false →
      handleError (.jsError nm msg) =
        { name := "NeuranaError",
          message := "An unexpected error occurred", code := "UNKNOWN_ERROR" }) ∧
    (handleError .nonError =
      { name := "NeuranaError",
        message := "An unexpected error occurred", code := "UNKNOWN_ERROR" }) ∧
    (∀ e, handleError (.neurana e) = e) := by
  refine ⟨?_, ?_, ?_, ?_, rfl, fun e => rfl⟩
  · intro r h200 h300 h204 hjson hbody
    have hok : r.ok = true := by
      simp only [Response.ok, decide_eq_true_eq]
      exact ⟨h200, h300⟩
    simp [handleResponse, HTTP_STATUS.NO_CONTENT, h204, hok, hjson, hbody]
  · intro msg
    simp [handleError]
  · intro nm msg hnm hsub
    simp [handleError, hnm, hsub]
  · intro nm msg hnm hsub
    simp [handleError, hnm, hsub]

/-- Witness for C5: parse failure on 200, an abort, and a network-flavoured failure. -/
theorem outcome_classification_total_witness :
    handleResponse respParseFail =
      .error { name := "NeuranaError",
               message := "Failed to parse response", code := "PARSE_ERROR",
               statusCode := some 200 } ∧
    handleError (.jsError "AbortError" "This operation was aborted") =
      TimeoutError (ERROR_MESSAGES ERROR_CODES.TIMEOUT) ∧
    handleError (.jsError "TypeError" "network socket disconnected") =
      NetworkError "Failed to connect to server" ∧
    handleError .nonError =
      { name := "NeuranaError",
        message := "An unexpected error occurred", code := "UNKNOWN_ERROR" } := by
  have h := outcome_classification_total
  refine ⟨?_, h.2.1 _, ?_, h.2.2.2.2.1⟩
  · have := h.1 respParseFail (by decide) (by decide) (by decide) (by decide) rfl
    simpa [respParseFail] using this
  · exact h.2.2.1 "TypeError" "network socket disconnected" (by decide) (by decide)

/-- Counterexample for C6: a 429 response whose `Retry-After` header is `-5` yields a
RateLimit error carrying the negative value −5; the code does not clamp, so the
claim's "always non-negative" clause is false. -/
theorem rate_limit_negative_retry_after_counterexample :
    (createHttpError resp429neg none).retryAfter = some (-5) ∧
    ¬(0 : Int) ≤ -5 := by
  constructor
  · decide
  · decide

/-- Claim C6 (amended): a 429 response yields a RateLimit error whose retry-after is
the integer `parseInt` extracts from the `Retry-After` header when present and
parseable — including a negative value if the header is negative — and 60 when the
header is missing, empty, or unparseable; the carried value is non-negative whenever
the header, if it parses at all, parses to a non-negative integer. -/
theorem rate_limit_retry_after_amended (r : Response) (ed : Option ApiError)
    (h : r.status = 429) :
    (createHttpError r ed).name = "RateLimitError" ∧
    (createHttpError r ed).retryAfter = some (retryAfterValue r.retryAfterHeader) ∧
    (r.retryAfterHeader = none → retryAfterValue r.retryAfterHeader = 60) ∧
    (∀ hdr n, r.retryAfterHeader = some hdr → ¬hdr = "" → jsParseInt hdr = some n →
      retryAfterValue r.retryAfterHeader = n) ∧
    (∀ hdr, r.retryAfterHeader = some hdr → jsParseInt hdr = none →
      retryAfterValue r.retryAfterHeader = 60) ∧
    ((∀ n, jsParseInt (r.retryAfterHeader.getD "") = some n → 0 ≤ n) →
      0 ≤ retryAfterValue r.retryAfterHeader) := by
  refine ⟨?_, ?_, ?_, ?_, ?_, ?_⟩
  · simp [createHttpError, h, HTTP_STATUS.UNAUTHORIZED, HTTP_STATUS.FORBIDDEN,
      HTTP_STATUS.NOT_FOUND, HTTP_STATUS.UNPROCESSABLE, HTTP_STATUS.BAD_REQUEST,
      HTTP_STATUS.RATE_LIMITED, RateLimitError]
  · simp [createHttpError, h, HTTP_STATUS.UNAUTHORIZED, HTTP_STATUS.FORBIDDEN,
      HTTP_STATUS.NOT_FOUND, HTTP_STATUS.UNPROCESSABLE, HTTP_STATUS.BAD_REQUEST,
      HTTP_STATUS.RATE_LIMITED, RateLimitError]
  · intro hh
    simp [retryAfterValue, hh]
  · intro hdr n hh hne hp
    simp [retryAfterValue, hh, hne, hp]
  · intro hdr hh hp
    simp [retryAfterValue, hh, hp]
  · intro hpos
    rcases hh : r.retryAfterHeader with _ | hdr
    · simp [retryAfterValue]
    · by_cases hne : hdr = ""
      · simp [retryAfterValue, hne]
      · rcases hp : jsParseInt hdr with _ | n
        · simp [retryAfterValue, hne, hp]
        · have := hpos n (by rw [hh]; simpa using hp)
          simp [retryAfterValue, hne, hp]
          exact this

/-- Witness for C6 (amended): header `45` gives 45; a missing header gives 60. -/
theorem rate_limit_retry_after_amended_witness :
    (createHttpError resp429with45 none).retryAfter = some 45 ∧
    (createHttpError { status := 429 } none).retryAfter = some 60 ∧
    (0 : Int) ≤ 45 := by
  have h1 := rate_limit_retry_after_amended resp429with45 none rfl
  have h2 := rate_limit_retry_after_amended { status := 429 } none rfl
  refine ⟨?_, ?_, by decide⟩
  · rw [h1.2.1]
    decide
  · rw [h2.2.1]
    decide

/-- Claim C7: an Operation cancelled (aborted) before completion yields a Timeout
error with no retry; among transport-level failures, exactly those classified as
transient network conditions are retried, and only while attempts remain. -/
theorem abort_is_timeout_and_never_retried (f : Nat → FetchOutcome)
    (habort : f 1 = .failure abortThrown) :
    (executeWithRetry f 1).attempts = [1] ∧
    (executeWithRetry f 1).outcome = .error abortThrown ∧
    (request f).result = .error (TimeoutError (ERROR_MESSAGES ERROR_CODES.TIMEOUT)) ∧
    (∀ g : Nat → FetchOutcome, ∀ n e, g n = .failure e →
      ¬(isRetryableError e = true ∧ n < RETRY.MAX_ATTEMPTS) →
      (executeWithRetry g n).attempts = [n] ∧
      (executeWithRetry g n).outcome = .error e) ∧
    (∀ g : Nat → FetchOutcome, ∀ n e, g n = .failure e → isRetryableError e = true →
      n < RETRY.MAX_ATTEMPTS →
      (executeWithRetry g n).attempts = n :: (executeWithRetry g (n + 1)).attempts) := by
  have e0 := executeWithRetry_failure_stop f 1 abortThrown habort (by decide)
  refine ⟨?_, ?_, ?_, ?_, ?_⟩
  · rw [e0]
  · rw [e0]
  · simp only [request]
    rw [e0]
    rfl
  · intro g n e hg hno
    have := executeWithRetry_failure_stop g n e hg hno
    rw [this]
    exact ⟨rfl, rfl⟩
  · intro g n e hg hr hn
    have := executeWithRetry_failure_retry g n e hg hr hn
    rw [this]

/-- Witness for C7 at the transport that aborts on the first attempt. -/
theorem abort_is_timeout_and_never_retried_witness :
    (executeWithRetry (fun _ => FetchOutcome.failure abortThrown) 1).attempts = [1] ∧
    (request (fun _ => FetchOutcome.failure abortThrown)).result =
      .error (TimeoutError (ERROR_MESSAGES ERROR_CODES.TIMEOUT)) := by
  have h := abort_is_timeout_and_never_retried (fun _ => .failure abortThrown) rfl
  exact ⟨h.1, h.2.2.1⟩

/-- Claim C9 (code evaluated at the failing input): the endpoint-security check uses a
substring test for "localhost", so the non-loopback plain-HTTP URL
`http://evil.com/localhost` is accepted without the insecure override, while a
non-loopback HTTP URL without the magic substring is rejected, a loopback URL is
accepted, and the override turns rejection into a warning. -/
theorem endpoint_security_localhost_substring_bug :
    validateEndpointSecurity (some "http://evil.com/localhost") false = .passed ∧
    validateEndpointSecurity (some "http://evil.com/") false =
      .rejected (ConfigurationError "HTTPS is required for non-localhost endpoints") ∧
    validateEndpointSecurity (some "http://localhost:3000") false = .passed ∧
    validateEndpointSecurity (some "http://evil.com/") true = .warnedInsecure := by
  refine ⟨by decide, by decide, by decide, by decide⟩

/-- Claim C10: a 400 response surfaces as a Validation error whose `statusCode` is
422, indistinguishable from a 422 response with the same body. -/
theorem validation_error_collapses_400_to_422 (r400x r422x : Response)
    (ed : Option ApiError) (h4 : r400x.status = 400) (h22 : r422x.status = 422) :
    handleResponse r400x = .error (createHttpError r400x (errorDataOf r400x)) ∧
    (createHttpError r400x ed).name = "ValidationError" ∧
    (createHttpError r400x ed).statusCode = some 422 ∧
    createHttpError r400x ed = createHttpError r422x ed := by
  have hne : ¬(200 ≤ r400x.status ∧ r400x.status < 300) := by
    rw [h4]
    omega
  refine ⟨handleResponse_non2xx hne, ?_, ?_, ?_⟩ <;>
    simp [createHttpError, h4, h22, HTTP_STATUS.UNAUTHORIZED, HTTP_STATUS.FORBIDDEN,
      HTTP_STATUS.NOT_FOUND, HTTP_STATUS.UNPROCESSABLE, HTTP_STATUS.BAD_REQUEST,
      ValidationError]

/-- Witness for C10 at concrete 400/422 responses sharing one error body. -/
theorem validation_error_collapses_400_to_422_witness :
    handleResponse resp400 = .error (createHttpError resp400 (errorDataOf resp400)) ∧
    (createHttpError resp400 (errorDataOf resp400)).statusCode = some 422 ∧
    createHttpError resp400 (errorDataOf resp400) =
      createHttpError resp422 (errorDataOf resp400) := by
  have h := validation_error_collapses_400_to_422 resp400 resp422
    (errorDataOf resp400) rfl rfl
  exact ⟨h.1, h.2.2.1, h.2.2.2⟩

theorem executeWithRetry_events_no_timer (f : Nat → FetchOutcome) :
    ∀ m n, RETRY.MAX_ATTEMPTS - n ≤ m →
      (executeWithRetry f n).events.count Event.timerArm = 0 ∧
      (executeWithRetry f n).events.count Event.timerClear = 0 := by
  intro m
  induction m with
  | zero =>
      intro n hn
      have hmax : ¬n < RETRY.MAX_ATTEMPTS := by
        simp only [RETRY.MAX_ATTEMPTS] at hn ⊢
        omega
      cases hf : f n with
      | success r =>
          have hs : shouldRetry r.status n = false := by
            simp [shouldRetry, hmax]
          rw [executeWithRetry_success_stop f n r hf hs]
          simp [List.count_cons, beq_iff_eq]
      | failure e =>
          rw [executeWithRetry_failure_stop f n e hf (fun hc => hmax hc.2)]
          simp [List.count_cons, beq_iff_eq]
  | succ m ih =>
      intro n hn
      cases hf : f n with
      | success r =>
          by_cases hs : shouldRetry r.status n = true
          · have hlt : n < RETRY.MAX_ATTEMPTS := by
              have := hs
              simp only [shouldRetry, Bool.and_eq_true, decide_eq_true_eq] at this
              exact this.1
            have hrec := ih (n + 1) (by
              simp only [RETRY.MAX_ATTEMPTS] at hn hlt ⊢
              omega)
            rw [executeWithRetry_success_retry f n r hf hs]
            simp [List.count_cons, beq_iff_eq, hrec.1, hrec.2]
          · rw [executeWithRetry_success_stop f n r hf (by simpa using hs)]
            simp [List.count_cons, beq_iff_eq]
      | failure e =>
          by_cases hr : isRetryableError e = true ∧ n < RETRY.MAX_ATTEMPTS
          · have hrec := ih (n + 1) (by
              have := hr.2
              simp only [RETRY.MAX_ATTEMPTS] at hn this ⊢
              omega)
            rw [executeWithRetry_failure_retry f n e hf hr.1 hr.2]
            simp [List.count_cons, beq_iff_eq, hrec.1, hrec.2]
          · rw [executeWithRetry_failure_stop f n e hf hr]
            simp [List.count_cons, beq_iff_eq]

/-- Counterexample for C8: with a transport that always answers 503 the operation
performs 3 attempts but the deadline timer is armed exactly once — at request start,
not at each attempt's start — so "a deadline timer armed at the attempt's start" is
false for the retried attempts. -/
theorem deadline_timer_not_per_attempt_counterexample :
    (request alwaysFail503).events.count Event.timerArm = 1 ∧
    ((request alwaysFail503).events.filter isAttemptEvent).length = 3 ∧
    ¬(request alwaysFail503).events.count Event.timerArm =
      ((request alwaysFail503).events.filter isAttemptEvent).length := by
  have c1 : calculateDelay 1 = 1000 := by decide
  have c2 : calculateDelay 2 = 2000 := by decide
  have e1 := executeWithRetry_success_retry alwaysFail503 1 resp503 rfl (by decide)
  have e2 := executeWithRetry_success_retry alwaysFail503 2 resp503 rfl (by decide)
  have e3 := executeWithRetry_success_stop alwaysFail503 3 resp503 rfl (by decide)
  have hev : (request alwaysFail503).events =
      [Event.timerArm, .fetchAttempt 1, .sleep 1000, .fetchAttempt 2, .sleep 2000,
       .fetchAttempt 3, Event.timerClear] := by
    simp only [request]
    rw [e1, e2, e3, c1, c2]
    rfl
  rw [hev]
  refine ⟨by decide, by decide, by decide⟩

/-- Claim C8 (amended): the deadline is enforced per operation, not per attempt — a
single timer is armed at request start before the first attempt, it spans all retry
attempts, its firing aborts the in-flight transport call and surfaces as a Timeout
error, and it is cleared exactly once, as the last event, on every exit path
including error paths, so no pending timer is leaked. -/
theorem deadline_timer_per_operation_amended (f : Nat → FetchOutcome) :
    (request f).events.head? = some Event.timerArm ∧
    (request f).events.getLast? = some Event.timerClear ∧
    (request f).events.count Event.timerArm = 1 ∧
    (request f).events.count Event.timerClear = 1 ∧
    (f 1 = .failure abortThrown →
      (request f).result = .error (TimeoutError (ERROR_MESSAGES ERROR_CODES.TIMEOUT))) := by
  have hno := executeWithRetry_events_no_timer f RETRY.MAX_ATTEMPTS 1
    (by simp [RETRY.MAX_ATTEMPTS])
  refine ⟨?_, ?_, ?_, ?_, ?_⟩
  · simp [request]
  · simp only [request]
    rw [show Event.timerArm :: (executeWithRetry f 1).events ++ [Event.timerClear] =
      (Event.timerArm :: (executeWithRetry f 1).events) ++ [Event.timerClear] from rfl]
    exact List.getLast?_concat _
  · simp only [request]
    simp [List.count_cons, List.count_append, hno.1]
  · simp only [request]
    simp [List.count_cons, List.count_append, hno.2]
  · intro habort
    have e0 := executeWithRetry_failure_stop f 1 abortThrown habort (by decide)
    simp only [request]
    rw [e0]
    rfl

/-- Witness for C8 (amended), discharging the abort hypothesis at a transport that
aborts immediately. -/
theorem deadline_timer_per_operation_amended_witness :
    (request (fun _ => FetchOutcome.failure abortThrown)).events.head? =
      some Event.timerArm ∧
    (request (fun _ => FetchOutcome.failure abortThrown)).events.getLast? =
      some Event.timerClear ∧
    (request (fun _ => FetchOutcome.failure abortThrown)).result =
      .error (TimeoutError (ERROR_MESSAGES ERROR_CODES.TIMEOUT)) := by
  have h := deadline_timer_per_operation_amended (fun _ => .failure abortThrown)
  exact ⟨h.1, h.2.1, h.2.2.2.2 rfl⟩

/-! ## Orchestrator lemmas -/

theorem startsWithList_append_both (a : List Char) {b c : List Char}
    (h : startsWithList b c = true) : startsWithList (a ++ b) (a ++ c) = true := by
  induction a with
  | nil => simpa using h
  | cons x xs ih => simp [startsWithList, ih]

theorem strStartsWith_append (a b c : String) (h : strStartsWith b c = true) :
    strStartsWith (a ++ b) (a ++ c) = true := by
  show startsWithList (a.toList ++ b.toList) (a.toList ++ c.toList) = true
  exact startsWithList_append_both a.toList h

theorem codeStepValidationError_shape {j : Nat} {c : StepConfig} {e : NeuranaError}
    (h : codeStepValidationError j c = some e) :
    e.name = "ValidationError" ∧
    strStartsWith e.message ("Step " ++ toString (j + 1) ++ ":") = true := by
  rcases hrt : c.runtime with _ | rt
  · simp only [codeStepValidationError, hrt, Option.some.injEq] at h
    obtain rfl : _ = e := h
    exact ⟨rfl, strStartsWith_append ("Step " ++ toString (j + 1))
      ": runtime is required for code steps (python or node)" ":" (by decide)⟩
  · by_cases hval : (rt = "python" || rt = "node") = true
    · by_cases htrim : jsTrim (c.code.getD "") = ""
      · simp only [codeStepValidationError, hrt] at h
        rw [if_neg (by simp [hval]), if_pos htrim] at h
        obtain rfl : _ = e := Option.some.inj h
        exact ⟨rfl, strStartsWith_append ("Step " ++ toString (j + 1))
          ": code content is required for code steps" ":" (by decide)⟩
      · simp only [codeStepValidationError, hrt] at h
        rw [if_neg (by simp [hval]), if_neg htrim] at h
        exact absurd h (by simp)
    · simp only [codeStepValidationError, hrt] at h
      rw [if_pos (by simpa using hval)] at h
      obtain rfl : _ = e := Option.some.inj h
      refine ⟨rfl, strStartsWith_append ("Step " ++ toString (j + 1))
        (": runtime must be \x27python\x27 or \x27node\x27") ":" (by decide)⟩

theorem processStepsGo_cons_noncode (uploader : Uploader) (i : Nat) (s : Step)
    (rest : List Step) (hc : ¬s.type = "code") :
    processStepsGo uploader i (s :: rest) =
      ((processStepsGo uploader (i + 1) rest).1.map (s :: ·),
       (processStepsGo uploader (i + 1) rest).2) := by
  simp only [processStepsGo, if_neg hc]

theorem processStepsGo_cons_invalid (uploader : Uploader) (i : Nat) (s : Step)
    (rest : List Step) (hc : s.type = "code") (e : NeuranaError)
    (hbad : codeStepValidationError i s.config = some e) :
    processStepsGo uploader i (s :: rest) = (.error e, []) := by
  rcases hrt : s.config.runtime with _ | rt
  · simp only [codeStepValidationError, hrt, Option.some.injEq] at hbad
    obtain rfl : _ = e := hbad
    simp only [processStepsGo, if_pos hc, hrt]
  · by_cases hval : (rt = "python" || rt = "node") = true
    · by_cases htrim : jsTrim (s.config.code.getD "") = ""
      · simp only [codeStepValidationError, hrt] at hbad
        rw [if_neg (by simp [hval]), if_pos htrim] at hbad
        obtain rfl : _ = e := Option.some.inj hbad
        simp only [processStepsGo, if_pos hc, hrt]
        rw [if_neg (by simp [hval]), if_pos htrim]
      · simp only [codeStepValidationError, hrt] at hbad
        rw [if_neg (by simp [hval]), if_neg htrim] at hbad
        exact absurd hbad (by simp)
    · simp only [codeStepValidationError, hrt] at hbad
      rw [if_pos (by simpa using hval)] at hbad
      obtain rfl : _ = e := Option.some.inj hbad
      simp only [processStepsGo, if_pos hc, hrt]
      rw [if_pos (by simpa using hval)]

theorem uploadCallFor_eq (i : Nat) (c : StepConfig) (rt : String)
    (hrt : c.runtime = some rt) :
    uploadCallFor i c =
      { fileName := c.fileName.getD
          ("step_" ++ toString (i + 1) ++ "." ++ (if rt = "python" then "py" else "js")),
        content := c.code.getD "",
        language := if rt = "python" then "python" else "javascript" } := by
  simp [uploadCallFor, hrt]

theorem processStepsGo_cons_code_upload_err (uploader : Uploader) (i : Nat) (s : Step)
    (rest : List Step) (hc : s.type = "code") (rt : String)
    (hrt : s.config.runtime = some rt) (hval : (rt = "python" || rt = "node") = true)
    (htrim : ¬jsTrim (s.config.code.getD "") = "") (e : NeuranaError)
    (hup : uploader (uploadCallFor i s.config) = .error e) :
    processStepsGo uploader i (s :: rest) = (.error e, [uploadCallFor i s.config]) := by
  rw [uploadCallFor_eq i s.config rt hrt] at hup ⊢
  simp only [processStepsGo, if_pos hc, hrt]
  rw [if_neg (by simp [hval]), if_neg htrim, hup]

theorem processStepsGo_cons_code_upload_ok (uploader : Uploader) (i : Nat) (s : Step)
    (rest : List Step) (hc : s.type = "code") (rt : String)
    (hrt : s.config.runtime = some rt) (hval : (rt = "python" || rt = "node") = true)
    (htrim : ¬jsTrim (s.config.code.getD "") = "") (key : String)
    (hup : uploader (uploadCallFor i s.config) = .ok key) :
    processStepsGo uploader i (s :: rest) =
      ((processStepsGo uploader (i + 1) rest).1.map
        ({ type := s.type, name := s.name,
           config := { runtime := s.config.runtime, code := none, fileName := none,
                       fileId := some key, rest := s.config.rest },
           next := s.next, condition := s.condition } :: ·),
       uploadCallFor i s.config :: (processStepsGo uploader (i + 1) rest).2) := by
  rw [uploadCallFor_eq i s.config rt hrt] at hup ⊢
  simp only [processStepsGo, if_pos hc, hrt]
  rw [if_neg (by simp [hval]), if_neg htrim, hup]

theorem processStepsGo_ok_spec (uploader : Uploader) :
    ∀ (steps : List Step) (i : Nat) (out : List Step),
      (processStepsGo uploader i steps).1 = .ok out →
      out.length = steps.length ∧
      ∀ k (hk : k < steps.length) (hk' : k < out.length),
        stepProcessedOK uploader (i + k) (steps.get ⟨k, hk⟩) (out.get ⟨k, hk'⟩) := by
  intro steps
  induction steps with
  | nil =>
      intro i out h
      obtain rfl : ([] : List Step) = out := Except.ok.inj h
      exact ⟨rfl, fun k hk => absurd hk (by simp)⟩
  | cons s rest ih =>
      intro i out h
      by_cases hc : s.type = "code"
      · rcases hrt : s.config.runtime with _ | rt
        · rw [processStepsGo_cons_invalid uploader i s rest hc _
            (by simp only [codeStepValidationError, hrt]
                rfl)] at h
          exact absurd h (by simp)
        · by_cases hval : (rt = "python" || rt = "node") = true
          · by_cases htrim : jsTrim (s.config.code.getD "") = ""
            · rw [processStepsGo_cons_invalid uploader i s rest hc _
                (by simp only [codeStepValidationError, hrt]
                    rw [if_neg (by simp [hval]), if_pos htrim])] at h
              exact absurd h (by simp)
            · rcases hup : uploader (uploadCallFor i s.config) with e | key
              · rw [processStepsGo_cons_code_upload_err uploader i s rest hc rt hrt
                  hval htrim e hup] at h
                exact absurd h (by simp)
              · rw [processStepsGo_cons_code_upload_ok uploader i s rest hc rt hrt
                  hval htrim key hup] at h
                rcases hrest : (processStepsGo uploader (i + 1) rest).1 with e | others
                · rw [hrest] at h
                  exact absurd h (by simp [Except.map])
                · rw [hrest] at h
                  simp only [Except.map] at h
                  obtain rfl : _ :: others = out := Except.ok.inj h
                  obtain ⟨hlen, hpt⟩ := ih (i + 1) others hrest
                  refine ⟨by simpa using hlen, ?_⟩
                  intro k hk hk'
                  cases k with
                  | zero =>
                      refine Or.inr ⟨hc, rfl, rfl, rfl, rfl, rfl, rfl, rfl, rfl,
                        key, ?_, rfl⟩
                      simpa [Nat.add_zero] using hup
                  | succ k =>
                      have hk2 : k < rest.length := by simpa using hk
                      have hk2' : k < others.length := by simpa using hk'
                      have := hpt k hk2 hk2'
                      have hidx : i + 1 + k = i + (k + 1) := by omega
                      rw [hidx] at this
                      simpa using this
          · rw [processStepsGo_cons_invalid uploader i s rest hc _
              (by simp only [codeStepValidationError, hrt]
                  rw [if_pos (by simpa using hval)])] at h
            exact absurd h (by simp)
      · rw [processStepsGo_cons_noncode uploader i s rest hc] at h
        rcases hrest : (processStepsGo uploader (i + 1) rest).1 with e | others
        · rw [hrest] at h
          exact absurd h (by simp [Except.map])
        · rw [hrest] at h
          simp only [Except.map] at h
          obtain rfl : s :: others = out := Except.ok.inj h
          obtain ⟨hlen, hpt⟩ := ih (i + 1) others hrest
          refine ⟨by simpa using hlen, ?_⟩
          intro k hk hk'
          cases k with
          | zero => exact Or.inl ⟨hc, rfl⟩
          | succ k =>
              have hk2 : k < rest.length := by simpa using hk
              have hk2' : k < others.length := by simpa using hk'
              have := hpt k hk2 hk2'
              have hidx : i + 1 + k = i + (k + 1) := by omega
              rw [hidx] at this
              simpa using this

theorem processStepsGo_failfast (uploader : Uploader) :
    ∀ (steps : List Step) (i j : Nat) (hj : j < steps.length)
      (hc : (steps.get ⟨j, hj⟩).type = "code") (e : NeuranaError),
      codeStepValidationError (i + j) (steps.get ⟨j, hj⟩).config = some e →
      (∀ k (hk : k < j), stepPasses uploader (i + k) (steps.get ⟨k, Nat.lt_trans hk hj⟩)) →
      (processStepsGo uploader i steps).1 = .error e ∧
      (processStepsGo uploader i steps).2 = expectedUploads i (steps.take j) := by
  intro steps
  induction steps with
  | nil =>
      intro i j hj
      exact absurd hj (by simp)
  | cons s rest ih =>
      intro i j hj hc e hbad hprev
      cases j with
      | zero =>
          have hc0 : s.type = "code" := hc
          have hbad0 : codeStepValidationError i s.config = some e := by simpa using hbad
          rw [processStepsGo_cons_invalid uploader i s rest hc0 e hbad0]
          exact ⟨rfl, by simp [expectedUploads]⟩
      | succ j =>
          have hj' : j < rest.length := by simpa using hj
          have hpass : stepPasses uploader i s := by
            simpa using hprev 0 (Nat.succ_pos j)
          have hbad' : codeStepValidationError (i + 1 + j) (rest.get ⟨j, hj'⟩).config
              = some e := by
            have hidx : i + (j + 1) = i + 1 + j := by omega
            rw [hidx] at hbad
            simpa using hbad
          have hprev' : ∀ k (hk : k < j),
              stepPasses uploader (i + 1 + k) (rest.get ⟨k, Nat.lt_trans hk hj'⟩) := by
            intro k hk
            have hidx : i + (k + 1) = i + 1 + k := by omega
            have := hprev (k + 1) (by omega)
            rw [hidx] at this
            simpa using this
          obtain ⟨hres, htr⟩ := ih (i + 1) j hj' (by simpa using hc) e hbad' hprev'
          by_cases hcs : s.type = "code"
          · obtain ⟨hvalid, key, hup⟩ := hpass hcs
            rcases hrt : s.config.runtime with _ | rt
            · rw [codeStepValidationError, hrt] at hvalid
              exact absurd hvalid (by simp)
            · have hval : (rt = "python" || rt = "node") = true := by
                by_contra hval
                simp only [codeStepValidationError, hrt] at hvalid
                rw [if_pos (by simpa using hval)] at hvalid
                exact absurd hvalid (by simp)
              have htrim : ¬jsTrim (s.config.code.getD "") = "" := by
                intro htrim
                simp only [codeStepValidationError, hrt] at hvalid
                rw [if_neg (by simp [hval]), if_pos htrim] at hvalid
                exact absurd hvalid (by simp)
              rw [processStepsGo_cons_code_upload_ok uploader i s rest hcs rt hrt
                hval htrim key hup]
              constructor
              · simp [hres, Except.map]
              · simp [List.take_succ_cons, expectedUploads, hcs, htr]
          · rw [processStepsGo_cons_noncode uploader i s rest hcs]
            constructor
            · simp [hres, Except.map]
            · simp [List.take_succ_cons, expectedUploads, hcs, htr]

/-- Claim C3: if the step at 0-based position `j` is a code step failing validation
(missing or unsupported runtime, or empty source text) and every earlier step passes,
orchestration aborts with that Validation error — whose message names the 1-indexed
position `j + 1` — and the upload calls issued are exactly those of the code steps
strictly before position `j`; in particular no upload is issued for the offending
step or any later step. -/
theorem orchestrator_fails_fast_on_invalid_code_step (uploader : Uploader)
    (steps : List Step) (j : Nat) (hj : j < steps.length)
    (hc : (steps.get ⟨j, hj⟩).type = "code") (e : NeuranaError)
    (hbad : codeStepValidationError j (steps.get ⟨j, hj⟩).config = some e)
    (hprev : ∀ k (hk : k < j), stepPasses uploader k (steps.get ⟨k, Nat.lt_trans hk hj⟩)) :
    (processSteps uploader steps).1 = .error e ∧
    e.name = "ValidationError" ∧
    strStartsWith e.message ("Step " ++ toString (j + 1) ++ ":") = true ∧
    (processSteps uploader steps).2 = expectedUploads 0 (steps.take j) := by
  have h0 := processStepsGo_failfast uploader steps 0 j hj hc e (by simpa using hbad)
    (fun k hk => by simpa using hprev k hk)
  obtain ⟨hshape1, hshape2⟩ := codeStepValidationError_shape hbad
  exact ⟨h0.1, hshape1, hshape2, h0.2⟩

/-- Witness for C3: of two code steps whose first lacks a runtime, orchestration
fails with the Validation error naming step 1 and performs no upload at all. -/
theorem orchestrator_fails_fast_on_invalid_code_step_witness :
    (processSteps okUploader [badCodeStep, codeStepPy]).1 =
      .error (ValidationError
        "Step 1: runtime is required for code steps (python or node)" none) ∧
    (processSteps okUploader [badCodeStep, codeStepPy]).2 = [] := by
  have h := orchestrator_fails_fast_on_invalid_code_step okUploader
    [badCodeStep, codeStepPy] 0 (by decide) rfl
    (ValidationError "Step 1: runtime is required for code steps (python or node)" none)
    rfl (fun k hk => absurd hk (Nat.not_lt_zero k))
  exact ⟨h.1, h.2.2.2.trans rfl⟩

/-- Claim C2: on every successful workflow create/update, the outbound step sequence
has the same length and order as the input; each code step has its `code` and
`fileName` fields removed and the collaborator's artifact key added as `fileId`,
non-code steps pass through unchanged, and the workflow POST (resp. PATCH) is the
last network event, issued only after all per-step uploads. -/
theorem orchestrator_rewrites_code_steps_before_post (uploader : Uploader)
    (nm : String) (steps processed : List Step)
    (h : (processSteps uploader steps).1 = .ok processed) :
    processed.length = steps.length ∧
    (∀ k (hk : k < steps.length) (hk' : k < processed.length),
      stepProcessedOK uploader k (steps.get ⟨k, hk⟩) (processed.get ⟨k, hk'⟩)) ∧
    (¬jsTrim nm = "" → ¬steps.isEmpty = true →
      create uploader nm steps =
        { result := .ok processed,
          events := (processSteps uploader steps).2.map NetEvent.uploadCall ++
            [NetEvent.postWorkflow processed] }) ∧
    (∀ id hasOther, isValidId id = true → ¬steps.isEmpty = true →
      update uploader id hasOther (some steps) =
        { result := .ok processed,
          events := (processSteps uploader steps).2.map NetEvent.uploadCall ++
            [NetEvent.patchWorkflow (some processed)] }) := by
  obtain ⟨hlen, hpt⟩ := processStepsGo_ok_spec uploader steps 0 processed h
  refine ⟨hlen, ?_, ?_, ?_⟩
  · intro k hk hk'
    have := hpt k hk hk'
    simpa using this
  · intro hn he
    simp only [create]
    rw [if_neg hn, if_neg he]
    simp only [processSteps] at h
    simp only [processSteps, h]
  · intro id hasOther hid he
    simp only [update]
    rw [if_neg (by simp [hid])]
    rw [if_neg (by simp)]
    simp only [processSteps] at h
    simp only [processSteps, h, if_neg he]

/-- Witness for C2: a python code step followed by an http step; the code step is
rewritten (source text and filename gone, artifact key present), the http step is
untouched, and the workflow POST follows the single upload. -/
theorem orchestrator_rewrites_code_steps_before_post_witness :
    create okUploader "wf" [codeStepPy, httpStep] =
      { result := .ok [pyProcessed, httpStep],
        events := [NetEvent.uploadCall
            { fileName := "step_1.py", content := "print(1)", language := "python" },
          NetEvent.postWorkflow [pyProcessed, httpStep]] } ∧
    pyProcessed.config.code = none ∧
    pyProcessed.config.fileName = none ∧
    pyProcessed.config.fileId = some "artifact_step_1.py" := by
  have h := orchestrator_rewrites_code_steps_before_post okUploader "wf"
    [codeStepPy, httpStep] [pyProcessed, httpStep] rfl
  refine ⟨(h.2.2.1 (by decide) (by decide)).trans ?_, rfl, rfl, rfl⟩
  rfl

end Neurana
